import Mathlib

/-!
Shallow embedding of the tool-metadata extractors of `parse_chem_tools`
(`parse_cactus.py` and `parse_chemtoolbench.py`).

The Python code performs static analysis over `ast` trees.  We embed the
fragment of the Python AST the extractors inspect, model the handful of
`str` methods the code calls (`strip`, `split('\n')`, `startswith`,
`in`, `join`, `replace`) as structural-recursive Lean functions with
Python's semantics, and translate each Python function line by line.
-/

namespace PyParse

/-- Python `str.strip()` whitespace set (ASCII part): space, tab, LF, CR,
vertical tab, form feed. -/
def isPyWhitespace (c : Char) : Bool :=
  c = ' ' || c = '\t' || c = '\n' || c = '\r' || c = '\x0b' || c = '\x0c'

/-- Model of Python `s.strip()`: drop leading and trailing whitespace. -/
def pyStrip (s : String) : String :=
  ⟨((s.data.dropWhile isPyWhitespace).reverse.dropWhile isPyWhitespace).reverse⟩

/-- Helper for `pySplitLines`: accumulates the current chunk (reversed). -/
def splitLinesGo : List Char → List Char → List String
  | [], acc => [⟨acc.reverse⟩]
  | c :: cs, acc =>
    if c = '\n' then ⟨acc.reverse⟩ :: splitLinesGo cs []
    else splitLinesGo cs (c :: acc)

/-- Model of Python `s.split('\n')`: splits at every newline, keeping empty
chunks; `"".split('\n') == [""]`. -/
def pySplitLines (s : String) : List String :=
  splitLinesGo s.data []

/-- Model of Python `s.startswith(p)`. -/
def pyStartsWith (s p : String) : Bool :=
  p.data.isPrefixOf s.data

/-- Model of Python `c in s` for a one-character string `c`. -/
def pyCharIn (c : Char) (s : String) : Bool :=
  s.data.contains c

/-- Model of Python `sep.join(xs)`. -/
def pyJoin (sep : String) : List String → String
  | [] => ""
  | [x] => x
  | x :: y :: xs => x ++ sep ++ pyJoin sep (y :: xs)

/-- Helper for `pyReplace`; fuel-indexed so that it is structural (the fuel
`s.length` suffices because the pattern is non-empty at every call site,
so each step consumes at least one character). -/
def replaceGo (pat new : List Char) : Nat → List Char → List Char
  | _, [] => []
  | 0, l => l
  | fuel + 1, c :: cs =>
    if pat.isPrefixOf (c :: cs) then
      new ++ replaceGo pat new fuel ((c :: cs).drop pat.length)
    else
      c :: replaceGo pat new fuel cs

/-- Model of Python `s.replace(pat, new)` for a non-empty pattern:
left-to-right replacement of all non-overlapping occurrences. -/
def pyReplace (s pat new : String) : String :=
  ⟨replaceGo pat.data new.data s.data.length s.data⟩

/-- Python constant values relevant to the extractors (`ast.Constant.value`).
The code never requires the constant to be a string when reading class
attributes, so non-string constants must be representable. -/
inductive PyVal
  | str (s : String)
  | int (n : Int)
  | bool (b : Bool)
  | noneV
  deriving DecidableEq

/-- Python truthiness (`if v:`) of the embedded constant values. -/
def PyVal.truthy : PyVal → Bool
  | .str s => s ≠ ""
  | .int n => n ≠ 0
  | .bool b => b
  | .noneV => false

/-- The expression forms the extractors distinguish: `ast.Constant`,
`ast.Name`, and everything else. -/
inductive PyExpr
  | const (v : PyVal)
  | name (id : String)
  | other
  deriving DecidableEq

/-- One formal parameter (`ast.arg`): its name and, when present, the
source text of its type hint (the code only ever calls `ast.unparse` on
it, so we carry that text directly). -/
structure PyArg where
  arg : String
  ann : Option String
  deriving DecidableEq

/-- `ast.arguments`: the positional parameter list and the default-value
expressions.  Both extractors read only `.args`; `defaults` is carried so
that inputs with default values are representable. -/
structure PyArguments where
  args : List PyArg
  defaults : List PyExpr
  deriving DecidableEq

/-- The statement forms the extractors distinguish.  `functionDef` carries
`docstring` as the result of `ast.get_docstring` (`none` when absent);
`returns` is the `ast.unparse` text of the return annotation when present.
`other` stands for any other statement, keeping its nested statement block
(so that `ast.walk` can reach definitions nested under it). -/
inductive PyStmt
  | assign (targets : List PyExpr) (value : PyExpr)
  | annAssign (target : PyExpr) (ann : String) (value : Option PyExpr)
  | functionDef (name : String) (args : PyArguments) (returns : Option String)
      (docstring : Option String) (body : List PyStmt)
  | classDef (name : String) (body : List PyStmt)
  | other (body : List PyStmt)

/-- `ast.Module`: its top-level statement list. -/
structure PyModule where
  body : List PyStmt

/-- The child statements of a statement, as `ast.iter_child_nodes` yields
them.  (Pure-expression children are omitted: in Python no `ClassDef` or
`FunctionDef` statement can occur below an expression node, so the
subsequence of class/function definitions visited by `ast.walk` is
unchanged.) -/
def stmtChildren : PyStmt → List PyStmt
  | .functionDef _ _ _ _ b => b
  | .classDef _ b => b
  | .other b => b
  | _ => []

mutual

/-- The number of statement nodes in a statement's subtree. -/
def stmtWeight : PyStmt → Nat
  | .assign _ _ => 1
  | .annAssign _ _ _ => 1
  | .functionDef _ _ _ _ b => 1 + stmtListWeight b
  | .classDef _ b => 1 + stmtListWeight b
  | .other b => 1 + stmtListWeight b

/-- The number of statement nodes in a forest. -/
def stmtListWeight : List PyStmt → Nat
  | [] => 0
  | s :: l => stmtWeight s + stmtListWeight l

end

/-- Fuel-indexed breadth-first traversal: pop the head of the queue, yield
it, push its children at the back.  This is `ast.walk`'s loop. -/
def walkFuel : Nat → List PyStmt → List PyStmt
  | _, [] => []
  | 0, _ :: _ => []
  | n + 1, s :: q => s :: walkFuel n (q ++ stmtChildren s)

/-- Model of `ast.walk` over a statement forest: breadth-first order.
The fuel `stmtListWeight q` is exactly the number of nodes popped, so it
never runs out (`walkFuel_congr` below). -/
def walk (q : List PyStmt) : List PyStmt :=
  walkFuel (stmtListWeight q) q

/-- All children of all statements of a list, in order: the second BFS
level of `walk`. -/
def childrenOfAll : List PyStmt → List PyStmt
  | [] => []
  | s :: q => stmtChildren s ++ childrenOfAll q

/-- Is the statement a `ClassDef`? (`isinstance(node, ast.ClassDef)`). -/
def isClassDef : PyStmt → Bool
  | .classDef _ _ => true
  | _ => false

namespace Cactus

/-- The record built by `CactusToolParser._extract_tool_info`
(`parse_cactus.py:106`): a dict with keys `name`, `description`, `inputs`,
`outputs`.  `name` and `description` receive raw `ast.Constant` values, so
they are `PyVal`; `inputs`/`outputs` are always strings. -/
structure ToolInfo where
  name : PyVal
  description : PyVal
  inputs : String
  outputs : String
  deriving DecidableEq

/-- One step of the constants loop of `_extract_module_constants`
(`parse_cactus.py:71-84`): a single-`Name`-target assignment of a string
literal, plain or annotated, binds the stripped literal; everything else
is ignored.  The table is an association list where the most recent
binding is first, matching dict overwrite-then-lookup. -/
def const_step (k : List (String × String)) (s : PyStmt) : List (String × String) :=
  match s with
  | .assign [PyExpr.name x] (.const (.str v)) => (x, pyStrip v) :: k
  | .annAssign (PyExpr.name x) _ (some (.const (.str v))) => (x, pyStrip v) :: k
  | _ => k

/-- `CactusToolParser._extract_module_constants` (`parse_cactus.py:56-86`):
fold the constants loop over the module's top-level statements. -/
def extract_module_constants (m : PyModule) : List (String × String) :=
  m.body.foldl const_step []

/-- One step of the attribute loop of `_extract_tool_info`
(`parse_cactus.py:114-128`): an `AnnAssign` with a `Name` target named
`name` or `description` sets the field from a constant, or from the
constant table when the value is a bare identifier found there. -/
def attr_step (k : List (String × String)) (ti : ToolInfo) (item : PyStmt) : ToolInfo :=
  match item with
  | .annAssign (PyExpr.name id) _ (some v) =>
    if id = "name" then
      match v with
      | .const c => { ti with name := c }
      | .name x =>
        match List.lookup x k with
        | some s => { ti with name := .str s }
        | none => ti
      | .other => ti
    else if id = "description" then
      match v with
      | .const c => { ti with description := c }
      | .name x =>
        match List.lookup x k with
        | some s => { ti with description := .str s }
        | none => ti
      | .other => ti
    else ti
  | _ => ti

/-- The section marker of `_parse_docstring`'s loop (`current_section`). -/
inductive CacSec
  | parameters
  | returns
  deriving DecidableEq

/-- Loop state of `_parse_docstring` (`parse_cactus.py:163-188`). -/
structure CacDocState where
  cur : Option CacSec
  inputs : List String
  outputs : List String

/-- One iteration of `_parse_docstring`'s line loop
(`parse_cactus.py:169-188`): heading lines starting with `Parameters` /
`Returns` switch the section, a line starting with `---` is skipped, and
within a section a non-empty line not starting with `-` is collected (in
the parameters section only when it contains a `:`). -/
def cactusLineStep (st : CacDocState) (line : String) : CacDocState :=
  let l := pyStrip line
  if pyStartsWith l "Parameters" then { st with cur := some .parameters }
  else if pyStartsWith l "Returns" then { st with cur := some .returns }
  else if pyStartsWith l "---" then st
  else if st.cur = some CacSec.parameters ∧ l ≠ "" ∧ ¬ pyStartsWith l "-" then
    (if pyCharIn ':' l then { st with inputs := st.inputs ++ [l] } else st)
  else if st.cur = some CacSec.returns ∧ l ≠ "" ∧ ¬ pyStartsWith l "-" then
    { st with outputs := st.outputs ++ [l] }
  else st

/-- `CactusToolParser._extract_from_signature` (`parse_cactus.py:195-223`):
render each non-`self` parameter as `name: Type` (bare `name` when
unannotated), joined with `", "`; output is the return annotation text or
`""`.  Defaults are never read. -/
def extract_from_signature (args : PyArguments) (ret : Option String) : String × String :=
  let inputs := (args.args.filter (fun a => a.arg ≠ "self")).map
    (fun a =>
      match a.ann with
      | some t => a.arg ++ ": " ++ t
      | none => a.arg)
  let outputs := match ret with | some r => r | none => ""
  (pyJoin ", " inputs, outputs)

/-- `CactusToolParser._parse_docstring` (`parse_cactus.py:144-193`): when
the docstring is absent (or the empty string, which is falsy), fall back
to `_extract_from_signature`; otherwise split the docstring at newlines,
run the line loop, and join inputs with `", "` and outputs with `" "`. -/
def parse_docstring (d : Option String) (args : PyArguments) (ret : Option String) :
    String × String :=
  match d with
  | none => extract_from_signature args ret
  | some s =>
    if s = "" then extract_from_signature args ret
    else
      let st := (pySplitLines s).foldl cactusLineStep ⟨none, [], []⟩
      (if st.inputs = [] then "" else pyJoin ", " st.inputs,
       if st.outputs = [] then "" else pyJoin " " st.outputs)

/-- The `_run` loop of `_extract_tool_info` (`parse_cactus.py:131-136`):
find the first direct child that is a `FunctionDef` named `_run` and parse
its docstring (signature fallback included); `none` when there is no such
method. -/
def find_run_result : List PyStmt → Option (String × String)
  | [] => none
  | .functionDef n args ret doc _ :: rest =>
    if n = "_run" then some (parse_docstring doc args ret) else find_run_result rest
  | _ :: rest => find_run_result rest

/-- `CactusToolParser._extract_tool_info` (`parse_cactus.py:88-142`) on a
class body: fold the attribute loop over the direct children, then fill
`inputs`/`outputs` from the first `_run` method if any, and emit the
record only when `name` and `description` are both truthy. -/
def extract_tool_info (body : List PyStmt) (k : List (String × String)) : Option ToolInfo :=
  let ti0 : ToolInfo := ⟨.str "", .str "", "", ""⟩
  let ti1 := body.foldl (attr_step k) ti0
  let ti2 :=
    match find_run_result body with
    | some io => { ti1 with inputs := io.1, outputs := io.2 }
    | none => ti1
  if ti2.name.truthy && ti2.description.truthy then some ti2 else none

/-- The per-node action of `parse_content`'s walk loop
(`parse_cactus.py:47-51`): only `ClassDef` nodes produce records. -/
def extract_class_node (k : List (String × String)) : PyStmt → Option ToolInfo
  | .classDef _ body => extract_tool_info body k
  | _ => none

/-- `CactusToolParser.parse_content` (`parse_cactus.py:27-53`) after the
`ast.parse` step: build the constant table, then collect the records of
all `ClassDef` nodes in `ast.walk` order. -/
def parse_content (m : PyModule) : List ToolInfo :=
  let k := extract_module_constants m
  (walk m.body).filterMap (extract_class_node k)

/-- `parse_content` including its `ast.parse(content)` first line
(`parse_cactus.py:40`): the parse outcome of the raw source text is the
argument; a syntax error propagates untouched (the method has no
`try`/`except`), and the rest of the method is total. -/
def parse_content_checked (src : Except String PyModule) :
    Except String (List ToolInfo) :=
  match src with
  | .error e => .error e
  | .ok m => .ok (parse_content m)

end Cactus

namespace Chem

/-- The record built by `parse_function_node`
(`parse_chemtoolbench.py:76-81`): `outputs` may be `None` (when neither a
docstring returns line nor a return annotation exists). -/
structure ToolInfo where
  name : String
  description : String
  inputs : String
  outputs : Option String
  deriving DecidableEq

/-- The section marker of `parse_docstring`'s loop (`current_section`). -/
inductive ChemSec
  | name
  | description
  | parameters
  | returns
  deriving DecidableEq

/-- Loop state of `parse_docstring` (`parse_chemtoolbench.py:96-117`):
the `doc_parts` dict entries set so far plus the `parameters` list. -/
structure ChemDocState where
  cur : Option ChemSec
  name? : Option String
  desc? : Option String
  ret? : Option String
  params : List String

/-- One iteration of `parse_docstring`'s line loop
(`parse_chemtoolbench.py:101-117`): label lines `Name:` / `Description:`
capture the rest of their own line (via `replace` + `strip`) and switch
the section; `Parameters:` / `Returns:` only switch the section; inside
those two sections a non-empty line containing `:` is captured (appended
for parameters, overwriting for returns). -/
def chemLineStep (st : ChemDocState) (line : String) : ChemDocState :=
  let l := pyStrip line
  if pyStartsWith l "Name:" then
    { st with cur := some .name, name? := some (pyStrip (pyReplace l "Name:" "")) }
  else if pyStartsWith l "Description:" then
    { st with
      cur := some .description,
      desc? := some (pyStrip (pyReplace l "Description:" "")) }
  else if pyStartsWith l "Parameters:" then { st with cur := some .parameters }
  else if pyStartsWith l "Returns:" then { st with cur := some .returns }
  else if st.cur = some ChemSec.parameters ∧ l ≠ "" ∧ pyCharIn ':' l then
    { st with params := st.params ++ [l] }
  else if st.cur = some ChemSec.returns ∧ l ≠ "" ∧ pyCharIn ':' l then
    { st with ret? := some l }
  else st

/-- The `doc_parts` dict returned by `parse_docstring`: an unset key is
`none`, distinct from a present-but-empty string. -/
structure DocParts where
  name? : Option String
  desc? : Option String
  params? : Option String
  ret? : Option String

/-- `parse_docstring` (`parse_chemtoolbench.py:86-122`): strip the whole
docstring, split at newlines, run the line loop, and set the `parameters`
key only when at least one parameter line was collected (newline-joined).
-/
def parse_docstring (docstring : String) : DocParts :=
  let lines := pySplitLines (pyStrip docstring)
  let st := lines.foldl chemLineStep ⟨none, none, none, none, []⟩
  { name? := st.name?, desc? := st.desc?, ret? := st.ret?,
    params? := if st.params = [] then none else some (pyJoin "\n" st.params) }

/-- The per-parameter rendering of `parse_function_node`
(`parse_chemtoolbench.py:62-70`): `f"{name} ({type})"` where the type is
the annotation's source text, or Python's `None` printed as `"None"` when
the parameter is unannotated.  Every parameter of `args.args` is rendered
(`self` is not excluded). -/
def render_param (a : PyArg) : String :=
  a.arg ++ " (" ++ (match a.ann with | some t => t | none => "None") ++ ")"

/-- `parse_function_node` (`parse_chemtoolbench.py:40-83`): skip functions
whose docstring is absent or falsy; otherwise build the record with
`description` defaulting to `""`, `inputs` defaulting to the newline-joined
parameter renderings, and `outputs` defaulting to the return annotation
text (which may itself be `None`). -/
def parse_function_node (fname : String) (args : PyArguments) (ret : Option String)
    (docstring : Option String) : Option ToolInfo :=
  match docstring with
  | none => none
  | some d =>
    if d = "" then none
    else
      let doc := parse_docstring d
      let parameters := pyJoin "\n" (args.args.map render_param)
      let return_type : Option String := ret
      some
        { name := fname,
          description := doc.desc?.getD "",
          inputs := doc.params?.getD parameters,
          outputs := match doc.ret? with | some r => some r | none => return_type }

/-- The per-node action of `parse_chemistry_tools`' walk loop
(`parse_chemtoolbench.py:31-35`): only `FunctionDef` nodes produce
records. -/
def extract_function_node : PyStmt → Option ToolInfo
  | .functionDef n args ret doc _ => parse_function_node n args ret doc
  | _ => none

/-- `parse_chemistry_tools` (`parse_chemtoolbench.py:15-37`) after the
`ast.parse` step: collect the records of all `FunctionDef` nodes in
`ast.walk` order. -/
def parse_chemistry_tools (m : PyModule) : List ToolInfo :=
  (walk m.body).filterMap extract_function_node

/-- `parse_chemistry_tools` including its `ast.parse(python_code)` line
(`parse_chemtoolbench.py:28`): the parse outcome of the raw source text is
the argument; a syntax error propagates untouched (no `try`/`except`),
and the rest of the function is total. -/
def parse_chemistry_tools_checked (src : Except String PyModule) :
    Except String (List ToolInfo) :=
  match src with
  | .error e => .error e
  | .ok m => .ok (parse_chemistry_tools m)

end Chem

/-- Does the statement put a binding for `x` into the constant table?
These are exactly the statement shapes `const_step` reacts to: a
single-`Name`-target assignment of a string literal to `x`, plain or
annotated. -/
def binds_const (x : String) : PyStmt → Bool
  | .assign [PyExpr.name y] (.const (.str _)) => y == x
  | .annAssign (PyExpr.name y) _ (some (.const (.str _))) => y == x
  | _ => false

/-- A docstring line that the function-based `parse_docstring` captures
while inside the `Returns:` section: stripped it is non-empty, contains a
`:`, and is not one of the four label lines (which would switch the
section instead of being captured). -/
def chem_ret_line (x : String) : Bool :=
  let t := pyStrip x
  !(pyStartsWith t "Name:") && !(pyStartsWith t "Description:") &&
    !(pyStartsWith t "Parameters:") && !(pyStartsWith t "Returns:") &&
    !(t == "") && pyCharIn ':' t

/-! ### Concrete modules used by the counterexamples and witnesses -/

/-- A class attribute `name: str = <literal string>` (an `AnnAssign`). -/
def nameAttr (v : String) : PyStmt :=
  .annAssign (.name "name") "str" (some (.const (.str v)))

/-- A class attribute `description: str = <literal string>`. -/
def descAttr (v : String) : PyStmt :=
  .annAssign (.name "description") "str" (some (.const (.str v)))

/-- A module with one class that has non-empty `name` and `description`
attributes but no `_run` method among its direct children. -/
def c1_module : PyModule :=
  ⟨[.classDef "NoRun" [nameAttr "ToolA", descAttr "descA"]]⟩

/-- A module with one class whose `name` attribute is the non-string
constant `5` (truthy in Python) and whose `description` is a string. -/
def c2_module : PyModule :=
  ⟨[.classDef "E" [.annAssign (.name "name") "str" (some (.const (.int 5))),
                   descAttr "d"]]⟩

/-- `(self, a: int)` with return annotation used in the C3 example. -/
def c3_args : PyArguments := ⟨[⟨"self", none⟩, ⟨"a", some "int"⟩], []⟩

/-- A module with one qualifying class whose `_run` method has the
docstring `"Does stuff."` (no `Parameters`/`Returns` sections) and the
signature `(self, a: int) -> str`. -/
def c3_module : PyModule :=
  ⟨[.classDef "T3" [nameAttr "T3", descAttr "d3",
      .functionDef "_run" c3_args (some "str") (some "Does stuff.") []]]⟩

/-- `(self, a: int, b: str = "x")`: the default expression is carried in
`defaults`, exactly as `ast.arguments` carries it. -/
def c4_args : PyArguments :=
  ⟨[⟨"self", none⟩, ⟨"a", some "int"⟩, ⟨"b", some "str"⟩], [.const (.str "x")]⟩

/-- The body of a class whose `_run` has no docstring and declares
`(self, a: int, b: str = "x")`. -/
def c4_body (nm ds : String) : List PyStmt :=
  [nameAttr nm, descAttr ds, .functionDef "_run" c4_args none none []]

/-- A module with one such class. -/
def c4_module : PyModule := ⟨[.classDef "T4" (c4_body "T4" "d4")]⟩

/-- A module with a top-level `DESC = "hello"` and a class using
`description: str = DESC`. -/
def c5_module : PyModule :=
  ⟨[.assign [.name "DESC"] (.const (.str "hello")),
    .classDef "T5" [nameAttr "T5",
      .annAssign (.name "description") "str" (some (.name "DESC"))]]⟩

/-- Qualifying class `B`, nested inside `A` in `c6_module`. -/
def c6_classB : PyStmt := .classDef "B" [nameAttr "nameB", descAttr "dB"]

/-- A module whose document order of qualifying classes is `A`, `B`
(nested directly inside `A`), `C`. -/
def c6_module : PyModule :=
  ⟨[.classDef "A" [nameAttr "nameA", descAttr "dA", c6_classB],
    .classDef "C" [nameAttr "nameC", descAttr "dC"]]⟩

/-- A flat module (no statement below the top level contains a class):
used to witness the document-order special case. -/
def c6_flat_module : PyModule :=
  ⟨[.classDef "W" [nameAttr "W", descAttr "dW"],
    .assign [.name "X"] (.const (.str "y"))]⟩

/-- A function `f(self, a: int, b)` whose docstring has a `Description:`
line but no `Parameters:` section. -/
def c7_module : PyModule :=
  ⟨[.functionDef "f" ⟨[⟨"self", none⟩, ⟨"a", some "int"⟩, ⟨"b", none⟩], []⟩
      none (some "Description: does x") []]⟩

/-- A function whose docstring's `Returns:` section has two `:`-containing
lines. -/
def c8_module : PyModule :=
  ⟨[.functionDef "f" ⟨[], []⟩ none
      (some "Returns:\n a: first\n b: second") []]⟩

/-- A function with a `Description:` docstring line, no captured `Returns:`
line, and no return annotation. -/
def c10_module : PyModule :=
  ⟨[.functionDef "f" ⟨[⟨"x", none⟩], []⟩ none
      (some "Description: does things.") []]⟩

/-! ### Properties of the breadth-first traversal `walk` -/

theorem stmtWeight_pos (s : PyStmt) : 1 ≤ stmtWeight s := by
  cases s <;> simp [stmtWeight]

theorem stmtListWeight_append (a b : List PyStmt) :
    stmtListWeight (a ++ b) = stmtListWeight a + stmtListWeight b := by
  induction a with
  | nil => simp [stmtListWeight]
  | cons s a ih => simp [stmtListWeight, ih]; omega

theorem stmtListWeight_children_lt (s : PyStmt) :
    stmtListWeight (stmtChildren s) < stmtWeight s := by
  cases s <;> simp [stmtChildren, stmtWeight, stmtListWeight]

theorem walkFuel_nil (n : Nat) : walkFuel n [] = [] := by
  cases n <;> rfl

/-- The fuel of `walkFuel` is irrelevant as soon as it covers the number
of nodes in the queued forest. -/
theorem walkFuel_congr :
    ∀ (n m : Nat) (q : List PyStmt), stmtListWeight q ≤ n → stmtListWeight q ≤ m →
      walkFuel n q = walkFuel m q := by
  intro n
  induction n with
  | zero =>
    intro m q hn _
    cases q with
    | nil => simp [walkFuel_nil]
    | cons s q =>
      have := stmtWeight_pos s
      simp [stmtListWeight] at hn
      omega
  | succ n ih =>
    intro m q hn hm
    cases q with
    | nil => simp [walkFuel_nil]
    | cons s q =>
      have hpos := stmtWeight_pos s
      have hch := stmtListWeight_children_lt s
      cases m with
      | zero => simp [stmtListWeight] at hm; omega
      | succ m =>
        show s :: walkFuel n (q ++ stmtChildren s) = s :: walkFuel m (q ++ stmtChildren s)
        have hw : stmtListWeight (q ++ stmtChildren s) =
            stmtListWeight q + stmtListWeight (stmtChildren s) := stmtListWeight_append ..
        simp only [stmtListWeight] at hn hm
        exact congrArg _ (ih m (q ++ stmtChildren s) (by omega) (by omega))

theorem walk_nil : walk [] = [] := rfl

/-- The defining recurrence of `ast.walk`'s queue loop, fuel eliminated. -/
theorem walk_cons (s : PyStmt) (q : List PyStmt) :
    walk (s :: q) = s :: walk (q ++ stmtChildren s) := by
  have hpos := stmtWeight_pos s
  have hch := stmtListWeight_children_lt s
  have hw : stmtListWeight (q ++ stmtChildren s) =
      stmtListWeight q + stmtListWeight (stmtChildren s) := stmtListWeight_append ..
  obtain ⟨k, hk⟩ : ∃ k, stmtListWeight (s :: q) = k + 1 :=
    ⟨stmtListWeight (s :: q) - 1, by simp [stmtListWeight]; omega⟩
  have hk' : stmtListWeight (q ++ stmtChildren s) ≤ k := by
    simp only [stmtListWeight] at hk; omega
  unfold walk
  rw [hk]
  show s :: walkFuel k (q ++ stmtChildren s) = _
  exact congrArg _ (walkFuel_congr k _ _ hk' le_rfl)

/-- Processing a queue `q ++ r`: the whole of `q` is yielded first, and
`q`'s children are queued behind `r`. -/
theorem walk_append (q : List PyStmt) :
    ∀ r : List PyStmt, walk (q ++ r) = q ++ walk (r ++ childrenOfAll q) := by
  induction q with
  | nil => intro r; simp [childrenOfAll]
  | cons s q ih =>
    intro r
    rw [List.cons_append, walk_cons, List.append_assoc, ih (r ++ stmtChildren s)]
    simp [childrenOfAll, List.append_assoc]

/-- Level decomposition of the breadth-first traversal: first the roots in
order, then the traversal of all their children. -/
theorem walk_eq_self_append (q : List PyStmt) :
    walk q = q ++ walk (childrenOfAll q) := by
  have h := walk_append q []
  simpa using h

/-! ### Claim C1 -/

/-- C1 counterexample: a class with non-empty `name` and `description`
attributes and no `_run` method among its direct children still produces
a record — `parse_content` does not exclude it, contrary to the claim
that no record is emitted for such a class. -/
theorem c1_missing_run_counterexample :
    Cactus.parse_content c1_module =
      [⟨.str "ToolA", .str "descA", "", ""⟩] ∧
    Cactus.parse_content c1_module ≠ [] := by decide

/-! ### Claim C10 -/

/-- C10: a function whose docstring has a `Description:` line but no
captured `Returns:` line, and whose definition has no return annotation,
yields a record whose `outputs` field is `None` (not a string). -/
theorem c10_outputs_none :
    Chem.parse_chemistry_tools c10_module =
      [⟨"f", "does things.", "x (None)", none⟩] ∧
    ∃ r ∈ Chem.parse_chemistry_tools c10_module, r.outputs = none := by decide

/-! ### Claim C2 -/

/-- C2 counterexample: the class attribute loop accepts any
`ast.Constant`, so `name: str = 5` passes the truthiness check and the
emitted record's `name` is the integer `5`, not a (non-empty) string. -/
theorem c2_nonempty_string_counterexample :
    Cactus.parse_content c2_module = [⟨.int 5, .str "d", "", ""⟩] ∧
    ∀ s : String, (PyVal.int 5) ≠ PyVal.str s :=
  ⟨by decide, fun _ h => PyVal.noConfusion h⟩

/-- Destruct `(if c then some x else none) = some y`. -/
theorem ite_some_none_eq {α : Type} {c : Prop} [Decidable c] {x y : α}
    (h : (if c then some x else none) = some y) : c ∧ x = y := by
  split at h
  · exact ⟨by assumption, by injection h⟩
  · exact absurd h (by simp)

/-- The emission guard of `_extract_tool_info`: a record is returned only
when both `name` and `description` are truthy. -/
theorem extract_tool_info_truthy {body : List PyStmt} {k : List (String × String)}
    {rec : Cactus.ToolInfo} (h : Cactus.extract_tool_info body k = some rec) :
    rec.name.truthy = true ∧ rec.description.truthy = true := by
  unfold Cactus.extract_tool_info at h
  obtain ⟨hcond, heq⟩ := ite_some_none_eq h
  rw [← heq]
  exact (Bool.and_eq_true _ _).mp hcond

/-- C2 (amended): every record emitted by the class-based extractor has a
truthy `name` and a truthy `description` — for string values this means
non-empty, so a class whose `name` or `description` resolves to an empty
string yields no record; but a non-string truthy constant also passes. -/
theorem c2_truthy_records (m : PyModule) (rec : Cactus.ToolInfo)
    (h : rec ∈ Cactus.parse_content m) :
    rec.name.truthy = true ∧ rec.description.truthy = true := by
  unfold Cactus.parse_content at h
  rw [List.mem_filterMap] at h
  obtain ⟨s, -, hs⟩ := h
  cases s with
  | classDef n body => exact extract_tool_info_truthy hs
  | assign t v => exact absurd hs (by simp [Cactus.extract_class_node])
  | annAssign t a v => exact absurd hs (by simp [Cactus.extract_class_node])
  | functionDef n a r d b => exact absurd hs (by simp [Cactus.extract_class_node])
  | other b => exact absurd hs (by simp [Cactus.extract_class_node])

/-- C2 witness: the record of `c1_module` is emitted and its fields pass
the truthiness test. -/
theorem c2_truthy_records_witness :
    (⟨.str "ToolA", .str "descA", "", ""⟩ : Cactus.ToolInfo) ∈
      Cactus.parse_content c1_module ∧
    PyVal.truthy (.str "ToolA") = true ∧ PyVal.truthy (.str "descA") = true :=
  ⟨by decide, c2_truthy_records c1_module ⟨.str "ToolA", .str "descA", "", ""⟩ (by decide)⟩

/-- A single attribute-loop step never touches `inputs`/`outputs`. -/
theorem attr_step_preserves_io (k : List (String × String)) (ti : Cactus.ToolInfo)
    (s : PyStmt) :
    (Cactus.attr_step k ti s).inputs = ti.inputs ∧
    (Cactus.attr_step k ti s).outputs = ti.outputs := by
  unfold Cactus.attr_step
  repeat' split
  all_goals simp

/-- The whole attribute loop never touches `inputs`/`outputs`. -/
theorem foldl_attr_preserves_io (k : List (String × String)) :
    ∀ (body : List PyStmt) (ti : Cactus.ToolInfo),
      (body.foldl (Cactus.attr_step k) ti).inputs = ti.inputs ∧
      (body.foldl (Cactus.attr_step k) ti).outputs = ti.outputs
  | [], _ => ⟨rfl, rfl⟩
  | s :: body, ti => by
    rw [List.foldl_cons]
    have h1 := attr_step_preserves_io k ti s
    have h2 := foldl_attr_preserves_io k body (Cactus.attr_step k ti s)
    exact ⟨h2.1.trans h1.1, h2.2.trans h1.2⟩

/-- C1 (amended): a class with no `_run` method among its direct children
is NOT excluded; whenever its `name` and `description` pass the
truthiness check it still yields a record, whose `inputs` and `outputs`
are the empty string. -/
theorem c1_missing_run_amended (body : List PyStmt) (k : List (String × String))
    (rec : Cactus.ToolInfo) (hrun : Cactus.find_run_result body = none)
    (hrec : Cactus.extract_tool_info body k = some rec) :
    rec.inputs = "" ∧ rec.outputs = "" := by
  unfold Cactus.extract_tool_info at hrec
  rw [hrun] at hrec
  obtain ⟨-, heq⟩ := ite_some_none_eq hrec
  rw [← heq]
  exact foldl_attr_preserves_io k body _

/-- C1 witness: the no-`_run` class of `c1_module` has no `_run`, is
emitted, and its `inputs`/`outputs` are empty. -/
theorem c1_missing_run_witness :
    Cactus.find_run_result [nameAttr "ToolA", descAttr "descA"] = none ∧
    ((⟨.str "ToolA", .str "descA", "", ""⟩ : Cactus.ToolInfo).inputs = "" ∧
     (⟨.str "ToolA", .str "descA", "", ""⟩ : Cactus.ToolInfo).outputs = "") :=
  ⟨by decide, c1_missing_run_amended [nameAttr "ToolA", descAttr "descA"] []
    ⟨.str "ToolA", .str "descA", "", ""⟩ (by decide) (by decide)⟩

/-! ### Claim C3 -/

/-- C3 counterexample: a `_run` whose docstring exists (`"Does stuff."`)
but yields no parameters line and no returns line produces the record
fields `("", "")`, whereas the Signature Introspector on the same method
gives `("a: int", "str")` — the extractor does NOT substitute the
signature result. -/
theorem c3_usable_text_counterexample :
    Cactus.parse_content c3_module = [⟨.str "T3", .str "d3", "", ""⟩] ∧
    Cactus.extract_from_signature c3_args (some "str") = ("a: int", "str") ∧
    (("" : String), ("" : String)) ≠ (("a: int" : String), ("str" : String)) := by
  decide

/-- C3 (amended): when the docstring is present (non-empty) but its
section parsing captures nothing, `_parse_docstring` returns `("", "")`
for EVERY function node — the signature is not consulted; the signature
fallback fires only when the docstring is absent or empty. -/
theorem c3_no_fallback_amended (args : PyArguments) (ret : Option String) (d : String)
    (hne : d ≠ "")
    (hin : ((pySplitLines d).foldl Cactus.cactusLineStep ⟨none, [], []⟩).inputs = [])
    (hout : ((pySplitLines d).foldl Cactus.cactusLineStep ⟨none, [], []⟩).outputs = []) :
    Cactus.parse_docstring (some d) args ret = ("", "") := by
  simp only [Cactus.parse_docstring]
  rw [if_neg hne]
  simp [hin, hout]

/-- C3 witness: the `"Does stuff."` docstring with a non-trivial
signature still yields `("", "")`. -/
theorem c3_no_fallback_witness :
    Cactus.parse_docstring (some "Does stuff.") c3_args (some "str") = ("", "") :=
  c3_no_fallback_amended c3_args (some "str") "Does stuff." (by decide) (by decide)
    (by decide)

/-! ### Claim C4 -/

/-- C4 counterexample: for `_run(self, a: int, b: str = "x")` with no
docstring the record's `inputs` is `"a: int, b: str"`: the parameter
names and types are there, but the default value `"x"` does not occur
anywhere in it — defaults are not captured. -/
theorem c4_defaults_counterexample :
    Cactus.parse_content c4_module =
      [⟨.str "T4", .str "d4", "a: int, b: str", ""⟩] ∧
    pyCharIn 'x' "a: int, b: str" = false := by decide

/-- C4 (amended): a qualifying class whose `_run` has no docstring and
declares `(self, a: int, b: str = "x")` raises no exception (the
extraction is total) and yields `inputs = "a: int, b: str"` — names and
types, `self` excluded, defaults not captured. -/
theorem c4_signature_fallback (nm ds : String) (k : List (String × String))
    (hn : nm ≠ "") (hd : ds ≠ "") :
    Cactus.extract_tool_info (c4_body nm ds) k =
      some ⟨.str nm, .str ds, "a: int, b: str", ""⟩ ∧
    pyCharIn 'x' "a: int, b: str" = false := by
  refine ⟨?_, by decide⟩
  unfold c4_body nameAttr descAttr
  simp [Cactus.extract_tool_info, Cactus.attr_step, Cactus.find_run_result,
    Cactus.parse_docstring, Cactus.extract_from_signature, pyJoin, PyVal.truthy, hn, hd]

/-- C4 witness: the amended statement at `nm = "T4"`, `ds = "d4"`. -/
theorem c4_signature_fallback_witness :
    Cactus.extract_tool_info (c4_body "T4" "d4") [] =
      some ⟨.str "T4", .str "d4", "a: int, b: str", ""⟩ ∧
    pyCharIn 'x' "a: int, b: str" = false :=
  c4_signature_fallback "T4" "d4" [] (by decide) (by decide)

/-! ### Claim C7 -/

/-- C7 counterexample: for `f(self, a: int, b)` with a docstring lacking a
`Parameters:` section, the record's `inputs` is
`"self (None)\na (int)\nb (None)"` — the receiver is included and
unannotated parameters render as `name (None)`, not as the bare name. -/
theorem c7_inputs_counterexample :
    Chem.parse_chemistry_tools c7_module =
      [⟨"f", "does x", "self (None)\na (int)\nb (None)", none⟩] ∧
    ("self (None)\na (int)\nb (None)" : String) ≠ "a (int)\nb" := by decide

/-- C7 (amended): when the docstring captures no parameters section, the
function-based record's `inputs` is the newline-joined rendering
`name (Type)` over ALL declared parameters — the receiver is not
excluded, and an unannotated parameter renders as `name (None)`. -/
theorem c7_signature_rendering (fname : String) (args : PyArguments)
    (ret : Option String) (d : String) (hne : d ≠ "")
    (hp : (Chem.parse_docstring d).params? = none) :
    Option.map (fun r => r.inputs) (Chem.parse_function_node fname args ret (some d)) =
      some (pyJoin "\n" (args.args.map Chem.render_param)) := by
  simp only [Chem.parse_function_node]
  rw [if_neg hne]
  simp [hp]

/-- C7 witness: the amended statement at a concrete function. -/
theorem c7_signature_rendering_witness :
    Option.map (fun r => r.inputs)
      (Chem.parse_function_node "g" ⟨[⟨"a", some "int"⟩], []⟩ none
        (some "Description: d")) =
      some (pyJoin "\n" ((⟨[⟨"a", some "int"⟩], []⟩ : PyArguments).args.map
        Chem.render_param)) :=
  c7_signature_rendering "g" ⟨[⟨"a", some "int"⟩], []⟩ none "Description: d"
    (by decide) (by decide)

/-! ### Claim C5 -/

/-- A statement that does not bind `x` leaves `x`'s lookup in the constant
table unchanged. -/
theorem const_step_skip (x : String) (k : List (String × String)) (s : PyStmt)
    (h : binds_const x s = false) :
    List.lookup x (Cactus.const_step k s) = List.lookup x k := by
  unfold Cactus.const_step
  split
  · rename_i y v
    simp only [binds_const, beq_eq_false_iff_ne] at h
    have h' : (x == y) = false := by
      simp only [beq_eq_false_iff_ne]
      exact fun e => h e.symm
    simp [List.lookup, h']
  · rename_i y a v
    simp only [binds_const, beq_eq_false_iff_ne] at h
    have h' : (x == y) = false := by
      simp only [beq_eq_false_iff_ne]
      exact fun e => h e.symm
    simp [List.lookup, h']
  · rfl

/-- Folding the constants loop over statements none of which binds `x`
leaves `x`'s lookup unchanged. -/
theorem foldl_const_skip (x : String) :
    ∀ (l : List PyStmt) (k : List (String × String)),
      (∀ s ∈ l, binds_const x s = false) →
      List.lookup x (l.foldl Cactus.const_step k) = List.lookup x k
  | [], _, _ => rfl
  | s :: l, k, h => by
    rw [List.foldl_cons]
    rw [foldl_const_skip x l (Cactus.const_step k s) (fun t ht => h t (by simp [ht]))]
    exact const_step_skip x k s (h s (by simp))

/-- C5: constant resolution.
(1) With `DESC ↦ "hello"` in the table, a class declaring a non-empty
literal `name` and `description: str = DESC` yields a record whose
`description` is `"hello"`.
(2) A top-level single-`Name`-target assignment of a string literal
(plain or annotated), not re-bound later, maps the identifier to the
whitespace-stripped literal in the constant table.
(3) An identifier with no such binding (in particular one only assigned
non-string values or via multi-target assignments) is absent from the
table. -/
theorem c5_constant_resolution :
    (∀ (k : List (String × String)) (nm annN annD : String),
      List.lookup "DESC" k = some "hello" → nm ≠ "" →
      Cactus.extract_tool_info
        [.annAssign (.name "name") annN (some (.const (.str nm))),
         .annAssign (.name "description") annD (some (.name "DESC"))] k =
        some ⟨.str nm, .str "hello", "", ""⟩) ∧
    (∀ (m : PyModule) (pre post : List PyStmt) (x v : String) (s₀ : PyStmt),
      (s₀ = .assign [.name x] (.const (.str v)) ∨
        ∃ a, s₀ = .annAssign (.name x) a (some (.const (.str v)))) →
      m.body = pre ++ s₀ :: post →
      (∀ s ∈ post, binds_const x s = false) →
      List.lookup x (Cactus.extract_module_constants m) = some (pyStrip v)) ∧
    (∀ (m : PyModule) (x : String),
      (∀ s ∈ m.body, binds_const x s = false) →
      List.lookup x (Cactus.extract_module_constants m) = none) := by
  refine ⟨?_, ?_, ?_⟩
  · intro k nm annN annD hk hnm
    simp [Cactus.extract_tool_info, Cactus.attr_step, Cactus.find_run_result, hk,
      PyVal.truthy, hnm]
  · intro m pre post x v s₀ hs₀ hbody hpost
    unfold Cactus.extract_module_constants
    rw [hbody, List.foldl_append, List.foldl_cons]
    rw [foldl_const_skip x post _ hpost]
    have hstep : Cactus.const_step (pre.foldl Cactus.const_step []) s₀ =
        (x, pyStrip v) :: pre.foldl Cactus.const_step [] := by
      rcases hs₀ with h | ⟨a, h⟩ <;> subst h <;> rfl
    rw [hstep]
    simp [List.lookup]
  · intro m x h
    unfold Cactus.extract_module_constants
    rw [foldl_const_skip x m.body [] h]
    rfl

/-- C5 witness: on `c5_module` (which contains `DESC = "hello"` and a
class with `description: str = DESC`), the table maps `DESC` to the
stripped literal, an unbound identifier is absent, and the class record's
`description` is `"hello"`. -/
theorem c5_constant_resolution_witness :
    List.lookup "DESC" (Cactus.extract_module_constants c5_module) =
      some (pyStrip "hello") ∧
    List.lookup "OTHER" (Cactus.extract_module_constants c5_module) = none ∧
    Cactus.extract_tool_info
      [.annAssign (.name "name") "str" (some (.const (.str "T5"))),
       .annAssign (.name "description") "str" (some (.name "DESC"))]
      (Cactus.extract_module_constants c5_module) =
      some ⟨.str "T5", .str "hello", "", ""⟩ := by
  refine ⟨?_, ?_, ?_⟩
  · exact c5_constant_resolution.2.1 c5_module []
      [.classDef "T5" [nameAttr "T5",
        .annAssign (.name "description") "str" (some (.name "DESC"))]]
      "DESC" "hello" _ (Or.inl rfl) rfl (by decide)
  · exact c5_constant_resolution.2.2 c5_module "OTHER" (by decide)
  · exact c5_constant_resolution.1 (Cactus.extract_module_constants c5_module)
      "T5" "str" "str" (by decide) (by decide)

/-! ### Claim C6 -/

/-- C6 counterexample: in `c6_module` the document order of qualifying
classes is `A` (record `nameA`), its nested `B` (`nameB`), then `C`
(`nameC`); the extractor yields `A, C, B` instead, because `ast.walk` is
breadth-first. -/
theorem c6_document_order_counterexample :
    Cactus.parse_content c6_module =
      [⟨.str "nameA", .str "dA", "", ""⟩, ⟨.str "nameC", .str "dC", "", ""⟩,
       ⟨.str "nameB", .str "dB", "", ""⟩] ∧
    Cactus.parse_content c6_module ≠
      [⟨.str "nameA", .str "dA", "", ""⟩, ⟨.str "nameB", .str "dB", "", ""⟩,
       ⟨.str "nameC", .str "dC", "", ""⟩] := by decide

/-- C6 (amended): records follow `ast.walk`'s breadth-first order, which
agrees with document order only level by level.  In particular, when no
class definition occurs strictly below the top level, the output is
exactly the document-order sequence over the module's top-level
statements. -/
theorem c6_bfs_order (m : PyModule)
    (h : ∀ t ∈ walk (childrenOfAll m.body), isClassDef t = false) :
    Cactus.parse_content m =
      m.body.filterMap (Cactus.extract_class_node (Cactus.extract_module_constants m)) := by
  unfold Cactus.parse_content
  rw [walk_eq_self_append, List.filterMap_append]
  have hnil : (walk (childrenOfAll m.body)).filterMap
      (Cactus.extract_class_node (Cactus.extract_module_constants m)) = [] := by
    rw [List.filterMap_eq_nil_iff]
    intro t ht
    have hc := h t ht
    cases t <;> simp_all [Cactus.extract_class_node, isClassDef]
  rw [hnil, List.append_nil]

/-- C6 witness: on the flat module `c6_flat_module` the extractor output
is the document-order filter of the top-level statements. -/
theorem c6_bfs_order_witness :
    Cactus.parse_content c6_flat_module =
      c6_flat_module.body.filterMap
        (Cactus.extract_class_node (Cactus.extract_module_constants c6_flat_module)) :=
  c6_bfs_order c6_flat_module (by decide)

/-! ### Claim C8 -/

/-- A line processed inside the `Returns:` section that satisfies
`chem_ret_line` overwrites the `returns` entry and changes nothing else.
-/
theorem chemLineStep_capture (st : Chem.ChemDocState) (x : String)
    (hcur : st.cur = some Chem.ChemSec.returns) (hx : chem_ret_line x = true) :
    Chem.chemLineStep st x = { st with ret? := some (pyStrip x) } := by
  simp only [chem_ret_line, Bool.and_eq_true, Bool.not_eq_true'] at hx
  obtain ⟨⟨⟨⟨⟨h1, h2⟩, h3⟩, h4⟩, h5⟩, h6⟩ := hx
  have h5' : pyStrip x ≠ "" := by simpa [beq_eq_false_iff_ne] using h5
  unfold Chem.chemLineStep
  simp [h1, h2, h3, h4, h5', h6, hcur]

/-- Inside the `Returns:` section, a run of capturable lines ends with the
last line's stripped text as the `returns` entry: each capture overwrites
the previous one. -/
theorem chem_fold_last (l : String) (hl : chem_ret_line l = true) :
    ∀ (ls : List String) (st : Chem.ChemDocState),
      st.cur = some Chem.ChemSec.returns →
      (∀ x ∈ ls, chem_ret_line x = true) →
      ((ls ++ [l]).foldl Chem.chemLineStep st).ret? = some (pyStrip l)
  | [], st, hcur, _ => by
    simp [List.foldl_cons, chemLineStep_capture st l hcur hl]
  | a :: ls, st, hcur, hall => by
    rw [List.cons_append, List.foldl_cons, chemLineStep_capture st a hcur (hall a (by simp))]
    exact chem_fold_last l hl ls _ hcur (fun x hx => hall x (by simp [hx]))

/-- The `Returns:` label line switches the section to `returns` and
changes nothing else. -/
theorem chemLineStep_returns_label (st : Chem.ChemDocState) :
    Chem.chemLineStep st "Returns:" = { st with cur := some Chem.ChemSec.returns } := rfl

/-- C8: when the (stripped) docstring's lines are some prefix, then the
label line `Returns:`, then one or more capturable lines, the resulting
record's `outputs` is the LAST such line (stripped) — every captured
returns line overwrites the previous one. -/
theorem c8_returns_overwrite (fname : String) (args : PyArguments) (ret : Option String)
    (d : String) (pre ls : List String) (l : String)
    (hsplit : pySplitLines (pyStrip d) = pre ++ "Returns:" :: (ls ++ [l]))
    (hls : ∀ x ∈ ls, chem_ret_line x = true) (hl : chem_ret_line l = true) :
    Option.map (fun r => r.outputs) (Chem.parse_function_node fname args ret (some d)) =
      some (some (pyStrip l)) := by
  have hne : d ≠ "" := by
    intro h
    subst h
    rw [show pySplitLines (pyStrip "") = [""] from rfl] at hsplit
    have hlen := congrArg List.length hsplit
    simp [List.length_append] at hlen
    omega
  have hret : (Chem.parse_docstring d).ret? = some (pyStrip l) := by
    show ((pySplitLines (pyStrip d)).foldl Chem.chemLineStep
      ⟨none, none, none, none, []⟩).ret? = some (pyStrip l)
    rw [hsplit, List.foldl_append, List.foldl_cons, chemLineStep_returns_label]
    exact chem_fold_last l hl ls _ rfl hls
  simp only [Chem.parse_function_node]
  rw [if_neg hne]
  simp [hret]

/-- C8 witness: a docstring whose `Returns:` section has two
`:`-containing lines yields only the second one as `outputs`. -/
theorem c8_returns_overwrite_witness :
    Option.map (fun r => r.outputs)
      (Chem.parse_function_node "f" ⟨[], []⟩ none
        (some "Returns:\n a: first\n b: second")) =
      some (some (pyStrip " b: second")) :=
  c8_returns_overwrite "f" ⟨[], []⟩ none "Returns:\n a: first\n b: second"
    [] [" a: first"] " b: second" (by decide) (by decide) (by decide)

/-! ### Claim C9 -/

/-- C9: both extractors fail exactly when `ast.parse` fails on the source
text (the error value propagates untouched), and on a syntactically valid
module with zero qualifying classes (resp. functions) they return the
empty list rather than an error — the remainder of both extractors is a
total function. -/
theorem c9_error_propagation (src : Except String PyModule) :
    ((∃ e, src = Except.error e) ↔
      (∃ e, Cactus.parse_content_checked src = Except.error e)) ∧
    ((∃ e, src = Except.error e) ↔
      (∃ e, Chem.parse_chemistry_tools_checked src = Except.error e)) ∧
    (∀ m : PyModule, src = Except.ok m →
      ((∀ s ∈ walk m.body,
          Cactus.extract_class_node (Cactus.extract_module_constants m) s = none) →
        Cactus.parse_content_checked src = Except.ok []) ∧
      ((∀ s ∈ walk m.body, Chem.extract_function_node s = none) →
        Chem.parse_chemistry_tools_checked src = Except.ok [])) := by
  rcases src with e | m
  · refine ⟨⟨fun _ => ⟨e, rfl⟩, fun _ => ⟨e, rfl⟩⟩,
      ⟨fun _ => ⟨e, rfl⟩, fun _ => ⟨e, rfl⟩⟩, ?_⟩
    intro m h
    exact absurd h (by simp)
  · refine ⟨⟨fun h => absurd h (by simp), ?_⟩, ⟨fun h => absurd h (by simp), ?_⟩, ?_⟩
    · rintro ⟨e, he⟩
      exact absurd he (by simp [Cactus.parse_content_checked])
    · rintro ⟨e, he⟩
      exact absurd he (by simp [Chem.parse_chemistry_tools_checked])
    · rintro m' ⟨rfl⟩
      constructor
      · intro h
        simp only [Cactus.parse_content_checked, Cactus.parse_content]
        rw [List.filterMap_eq_nil_iff.mpr h]
      · intro h
        simp only [Chem.parse_chemistry_tools_checked, Chem.parse_chemistry_tools]
        rw [List.filterMap_eq_nil_iff.mpr h]

/-- C9 witness: the empty module (zero qualifying classes and functions)
yields `ok []` from both extractors. -/
theorem c9_error_propagation_witness :
    Cactus.parse_content_checked (Except.ok ⟨[]⟩) = Except.ok [] ∧
    Chem.parse_chemistry_tools_checked (Except.ok ⟨[]⟩) = Except.ok [] := by
  have h := (c9_error_propagation (Except.ok ⟨[]⟩)).2.2 ⟨[]⟩ rfl
  exact ⟨h.1 (by decide), h.2 (by decide)⟩

end PyParse
